import Mathlib

/-!
Verification of the trading-journal services (supabaseService.ts,
chartImageService.ts, chartImageUtils.ts) against their specification.

JS strings are modelled as lists of UTF-16 code units (`List Char`),
JS numbers occurring in trade records as rationals, and the 32-bit
signed-integer arithmetic of the hash function explicitly with
wrap-around on `Int`.
-/

set_option maxRecDepth 100000

namespace TradingJournal

/-- JS strings: sequences of UTF-16 code units. -/
abbrev Str := List Char

/-! ### simpleHash (supabaseService.ts lines 7-15)

JS source:
  let hash = 0
  for (let i = 0; i < str.length; i++) \x7b
    const char = str.charCodeAt(i)
    hash = ((hash << 5) - hash) + char
    hash = hash & hash // Convert to 32bit integer
  \x7d
  return Math.abs(hash).toString(16).padStart(8, '0')
-/

/-- Wrap an integer to a signed 32-bit value, as the JS bitwise operators do. -/
def toInt32 (n : Int) : Int := (n + 2 ^ 31) % 2 ^ 32 - 2 ^ 31

/-- One loop iteration of simpleHash: hash = ((hash << 5) - hash) + char, then
truncated back to 32 bits by hash & hash. -/
def hashStep (h : Int) (c : Char) : Int := toInt32 (toInt32 (h * 32) - h + c.toNat)

/-- The accumulated 32-bit hash value of a string (the loop of simpleHash). -/
def hashFold (s : Str) : Int := s.foldl hashStep 0

/-- Digit character as produced by JS Number.toString(16): lowercase hex. -/
def hexDigitChar (n : Nat) : Char := if n < 10 then Char.ofNat (48 + n) else Char.ofNat (87 + n)

/-- Fuel-bounded hex printing; the fuel only bounds the loop and is always
sufficient at the call site in `toHex`. Produces most-significant digit first,
like JS Number.toString(16) on a non-negative integer. -/
def toHexAux : Nat → Nat → List Char → List Char
  | 0, _, acc => acc
  | fuel + 1, n, acc =>
    if n < 16 then hexDigitChar n :: acc
    else toHexAux fuel (n / 16) (hexDigitChar (n % 16) :: acc)

/-- JS Math.abs(hash).toString(16) for a non-negative integer n. -/
def toHex (n : Nat) : List Char := toHexAux (n + 1) n []

/-- JS String.padStart(8, '0'). -/
def padStart8 (l : List Char) : List Char := List.replicate (8 - l.length) '0' ++ l

/-- simpleHash from supabaseService.ts: 32-bit string hash rendered as 8 hex chars. -/
def simpleHash (s : Str) : Str := padStart8 (toHex (hashFold s).natAbs)

/-! ### The UUID regular expressions -/

/-- Character class [0-9a-f] under the /i flag. -/
def isHexDigit (c : Char) : Bool :=
  ('0' ≤ c && c ≤ '9') || ('a' ≤ c && c ≤ 'f') || ('A' ≤ c && c ≤ 'F')

/-- Character class [1-5] (UUID version position). -/
def isVersionChar (c : Char) : Bool := '1' ≤ c && c ≤ '5'

/-- Character class [89ab] under the /i flag (UUID variant position). -/
def isVariantChar (c : Char) : Bool :=
  c == '8' || c == '9' || c == 'a' || c == 'b' || c == 'A' || c == 'B'

/-- Match exactly n hex digits at the front of the input, returning the rest. -/
def matchHexRun : Nat → Str → Option Str
  | 0, cs => some cs
  | _ + 1, [] => none
  | n + 1, c :: cs => if isHexDigit c then matchHexRun n cs else none

/-- Match a literal dash at the front of the input. -/
def expectDash : Str → Option Str
  | '-' :: r => some r
  | _ => none

/-- Match one character of the given class at the front of the input. -/
def matchClass (p : Char → Bool) : Str → Option Str
  | c :: r => if p c then some r else none
  | [] => none

/-- The anchored test of
  /^[0-9a-f]\x7b8\x7d-[0-9a-f]\x7b4\x7d-[1-5][0-9a-f]\x7b3\x7d-[89ab][0-9a-f]\x7b3\x7d-[0-9a-f]\x7b12\x7d$/i
used by convertToUUID in supabaseService.ts (line 20), run as a sequential
anchored matcher (every piece of the pattern has fixed width). -/
def uuidRegexTest (cs : Str) : Bool :=
  match (((((((((matchHexRun 8 cs).bind expectDash).bind
      (matchHexRun 4)).bind expectDash).bind
      (matchClass isVersionChar)).bind (matchHexRun 3)).bind expectDash).bind
      (matchClass isVariantChar)).bind (matchHexRun 3)).bind expectDash |>.bind
      (matchHexRun 12) with
  | some [] => true
  | _ => false

/-- The looser anchored test of
  /^[0-9a-f]\x7b8\x7d-[0-9a-f]\x7b4\x7d-[0-9a-f]\x7b4\x7d-[0-9a-f]\x7b4\x7d-[0-9a-f]\x7b12\x7d$/i
used in chartImageService.ts (attachChartImage line 576 and
convertTradeIdToUUID line 1064): no version/variant constraint. -/
def uuidLooseTest (cs : Str) : Bool :=
  match (((((((matchHexRun 8 cs).bind expectDash).bind
      (matchHexRun 4)).bind expectDash).bind
      (matchHexRun 4)).bind expectDash).bind
      (matchHexRun 4)).bind expectDash |>.bind
      (matchHexRun 12) with
  | some [] => true
  | _ => false

/-- JS parseInt(c, 16) on a single hex-digit character. -/
def hexVal (c : Char) : Nat :=
  if '0' ≤ c && c ≤ '9' then c.toNat - 48
  else if 'a' ≤ c && c ≤ 'f' then c.toNat - 87
  else if 'A' ≤ c && c ≤ 'F' then c.toNat - 55
  else 0

/-- convertToUUID from supabaseService.ts (lines 18-40): a valid UUID is
returned unchanged; a legacy id is hashed (with three salted variants) into a
deterministic v4-shaped UUID. -/
def convertToUUID (id : Str) : Str :=
  if uuidRegexTest id then id
  else
    let hash1 := simpleHash id
    let hash2 := simpleHash (id ++ "_salt1".data)
    let hash3 := simpleHash (id ++ "_salt2".data)
    let hash4 := simpleHash (id ++ "_salt3".data)
    hash1.take 8 ++ '-' ::
      (hash2.take 4 ++ '-' ::
        ('4' :: (hash3.take 3 ++ '-' ::
          (hexDigitChar ((hexVal (hash4.headD '0') &&& 3) ||| 8) ::
            ((hash4.drop 1).take 3 ++ '-' :: (hash1 ++ hash2).take 12)))))

/-- JS String.padEnd(12, '0'). -/
def padEnd12 (l : List Char) : List Char := l ++ List.replicate (12 - l.length) '0'

/-- convertTradeIdToUUID from chartImageService.ts (lines 1062-1077): a single
unsalted hash rendered as hex and sliced into UUID shape. -/
def convertTradeIdToUUID (tradeId : Str) : Str :=
  if uuidLooseTest tradeId then tradeId
  else
    let hex := padStart8 (toHex (hashFold tradeId).natAbs)
    hex.take 8 ++ '-' ::
      (hex.take 4 ++ '-' ::
        ('4' :: ((hex.drop 1).take 3 ++ '-' ::
          ('8' :: (hex.take 3 ++ '-' :: padEnd12 (hex.take 12))))))

/-- The inline trade-id-to-UUID conversion in attachChartImage
(chartImageService.ts lines 576-591); textually the same algorithm as
convertTradeIdToUUID. -/
def attachChartImageTradeIdConvert (tradeId : Str) : Str :=
  if uuidLooseTest tradeId then tradeId
  else
    let hex := padStart8 (toHex (hashFold tradeId).natAbs)
    hex.take 8 ++ '-' ::
      (hex.take 4 ++ '-' ::
        ('4' :: ((hex.drop 1).take 3 ++ '-' ::
          ('8' :: (hex.take 3 ++ '-' :: padEnd12 (hex.take 12))))))

/-! ### The data model

The Trade record is the field list handled by dbRowToTrade / tradeToDbRow in
supabaseService.ts.  Fields that those functions guard with JS truthiness
defaults (chartAttachments, _userEditedFields, _cmpAutoFetched,
_needsRecalculation) are optional, as witnessed by the guards in the source
(for example: if (!trade.chartAttachments) continue).  The leading underscore
of the source field names is dropped.  JS numbers are modelled as rationals
and timestamps as integers. -/

inductive BuySell
  | Buy
  | Sell
deriving DecidableEq

inductive PositionStatus
  | Open
  | Closed
  | Partial
deriving DecidableEq

inductive StorageKind
  | inlineStorage
  | blob
deriving DecidableEq

/-- ChartImage record (types/trade.ts, as used by the services): the fields
the chart-image pipeline reads. -/
structure ChartImage where
  id : Str
  filename : Str
  mimeType : Str
  size : ℚ
  uploadedAt : Int
  storage : StorageKind
  blobId : Option Str
  data : Option Str
deriving DecidableEq

/-- Attachment metadata: the fields cleanupOrphanedAttachments writes. -/
structure AttachMetadata where
  totalSize : ℚ
  updatedAt : Int
deriving DecidableEq

/-- TradeChartAttachments record. -/
structure TradeChartAttachments where
  beforeEntry : Option ChartImage
  afterExit : Option ChartImage
  metadata : Option AttachMetadata
deriving DecidableEq

/-- The empty attachments object, JS literal used as a default. -/
def emptyAttachments : TradeChartAttachments :=
  { beforeEntry := none, afterExit := none, metadata := none }

/-- The Trade record: exactly the fields mapped by dbRowToTrade. -/
structure Trade where
  id : Str
  tradeNo : Str
  date : Str
  name : Str
  entry : ℚ
  avgEntry : ℚ
  sl : ℚ
  tsl : ℚ
  buySell : BuySell
  cmp : ℚ
  setup : Str
  baseDuration : Str
  initialQty : ℚ
  pyramid1Price : ℚ
  pyramid1Qty : ℚ
  pyramid1Date : Str
  pyramid2Price : ℚ
  pyramid2Qty : ℚ
  pyramid2Date : Str
  positionSize : ℚ
  allocation : ℚ
  slPercent : ℚ
  exit1Price : ℚ
  exit1Qty : ℚ
  exit1Date : Str
  exit2Price : ℚ
  exit2Qty : ℚ
  exit2Date : Str
  exit3Price : ℚ
  exit3Qty : ℚ
  exit3Date : Str
  openQty : ℚ
  exitedQty : ℚ
  avgExitPrice : ℚ
  stockMove : ℚ
  rewardRisk : ℚ
  holdingDays : ℚ
  positionStatus : PositionStatus
  realisedAmount : ℚ
  plRs : ℚ
  pfImpact : ℚ
  cummPf : ℚ
  planFollowed : Bool
  exitTrigger : Str
  proficiencyGrowthAreas : Str
  sector : Str
  openHeat : ℚ
  notes : Str
  chartAttachments : Option TradeChartAttachments
  userEditedFields : Option (List Str)
  cmpAutoFetched : Option Bool
  needsRecalculation : Option Bool
deriving DecidableEq

/-- A row of the trades table, with the column list written by tradeToDbRow.
The three date columns are nullable; the jsonb columns are nullable. -/
structure DbRow where
  id : Str
  user_id : Str
  trade_no : Str
  date : Str
  name : Str
  entry : ℚ
  avg_entry : ℚ
  sl : ℚ
  tsl : ℚ
  buy_sell : BuySell
  cmp : ℚ
  setup : Str
  base_duration : Str
  initial_qty : ℚ
  pyramid1_price : ℚ
  pyramid1_qty : ℚ
  pyramid1_date : Option Str
  pyramid2_price : ℚ
  pyramid2_qty : ℚ
  pyramid2_date : Option Str
  position_size : ℚ
  allocation : ℚ
  sl_percent : ℚ
  exit1_price : ℚ
  exit1_qty : ℚ
  exit1_date : Option Str
  exit2_price : ℚ
  exit2_qty : ℚ
  exit2_date : Option Str
  exit3_price : ℚ
  exit3_qty : ℚ
  exit3_date : Option Str
  open_qty : ℚ
  exited_qty : ℚ
  avg_exit_price : ℚ
  stock_move : ℚ
  reward_risk : ℚ
  holding_days : ℚ
  position_status : PositionStatus
  realised_amount : ℚ
  pl_rs : ℚ
  pf_impact : ℚ
  cumm_pf : ℚ
  plan_followed : Bool
  exit_trigger : Str
  proficiency_growth_areas : Str
  sector : Str
  open_heat : ℚ
  notes : Str
  chart_attachments : Option TradeChartAttachments
  user_edited_fields : Option (List Str)
  cmp_auto_fetched : Bool
  needs_recalculation : Bool
deriving DecidableEq

/-! ### JS truthiness defaults used by the two converters -/

/-- JS x || d on a number x (0 is falsy). -/
def jsNumOr (x d : ℚ) : ℚ := if x = 0 then d else x

/-- JS x || d on a string x (the empty string is falsy). -/
def jsStrOr (x d : Str) : Str := if x = [] then d else x

/-- JS x || null on a string (tradeToDbRow date columns). -/
def jsStrOrNull (s : Str) : Option Str := if s = [] then none else some s

/-- JS x || d on a nullable string column (dbRowToTrade date fields). -/
def jsNullStrOr (x : Option Str) (d : Str) : Str :=
  match x with
  | none => d
  | some s => jsStrOr s d

/-! ### The legacy-id-to-UUID mapping (Map idMappings) -/

/-- idMappings: a JS Map, insertion-ordered association list. -/
abbrev Mappings := List (Str × Str)

/-- Map.set: update in place when the key exists, append otherwise. -/
def mapSet (m : Mappings) (k v : Str) : Mappings :=
  if m.any (fun p => p.1 == k) then m.map (fun p => if p.1 == k then (k, v) else p)
  else m ++ [(k, v)]

/-- Map.delete. -/
def mapDelete (m : Mappings) (k : Str) : Mappings := m.filter (fun p => !(p.1 == k))

/-- The loop in dbRowToTrade: the first legacy id whose stored UUID equals
the row id. -/
def mapFindByValue (m : Mappings) (uuid : Str) : Option Str :=
  (m.find? (fun p => p.2 == uuid)).map (fun p => p.1)

/-! ### tradeToDbRow and dbRowToTrade (supabaseService.ts lines 46-173) -/

/-- tradeToDbRow: convert a Trade to a database row, registering the
legacy-id-to-UUID mapping as a side effect. -/
def tradeToDbRow (trade : Trade) (userId : Str) (m : Mappings) : DbRow × Mappings :=
  let uuid := convertToUUID trade.id
  let m2 := mapSet m trade.id uuid
  ({ id := uuid
     user_id := userId
     trade_no := trade.tradeNo
     date := trade.date
     name := trade.name
     entry := trade.entry
     avg_entry := trade.avgEntry
     sl := trade.sl
     tsl := trade.tsl
     buy_sell := trade.buySell
     cmp := trade.cmp
     setup := trade.setup
     base_duration := trade.baseDuration
     initial_qty := trade.initialQty
     pyramid1_price := trade.pyramid1Price
     pyramid1_qty := trade.pyramid1Qty
     pyramid1_date := jsStrOrNull trade.pyramid1Date
     pyramid2_price := trade.pyramid2Price
     pyramid2_qty := trade.pyramid2Qty
     pyramid2_date := jsStrOrNull trade.pyramid2Date
     position_size := trade.positionSize
     allocation := trade.allocation
     sl_percent := trade.slPercent
     exit1_price := trade.exit1Price
     exit1_qty := trade.exit1Qty
     exit1_date := jsStrOrNull trade.exit1Date
     exit2_price := trade.exit2Price
     exit2_qty := trade.exit2Qty
     exit2_date := jsStrOrNull trade.exit2Date
     exit3_price := trade.exit3Price
     exit3_qty := trade.exit3Qty
     exit3_date := jsStrOrNull trade.exit3Date
     open_qty := trade.openQty
     exited_qty := trade.exitedQty
     avg_exit_price := trade.avgExitPrice
     stock_move := trade.stockMove
     reward_risk := trade.rewardRisk
     holding_days := trade.holdingDays
     position_status := trade.positionStatus
     realised_amount := trade.realisedAmount
     pl_rs := trade.plRs
     pf_impact := trade.pfImpact
     cumm_pf := trade.cummPf
     plan_followed := trade.planFollowed
     exit_trigger := trade.exitTrigger
     proficiency_growth_areas := trade.proficiencyGrowthAreas
     sector := trade.sector
     open_heat := trade.openHeat
     notes := trade.notes
     chart_attachments := some (trade.chartAttachments.getD emptyAttachments)
     user_edited_fields := some (trade.userEditedFields.getD [])
     cmp_auto_fetched := trade.cmpAutoFetched.getD false
     needs_recalculation := trade.needsRecalculation.getD false }, m2)

/-- dbRowToTrade: convert a database row back to a Trade, restoring the
original id through the idMappings scan. -/
def dbRowToTrade (m : Mappings) (row : DbRow) : Trade :=
  let originalId := (mapFindByValue m row.id).getD row.id
  { id := originalId
    tradeNo := row.trade_no
    date := row.date
    name := row.name
    entry := jsNumOr row.entry 0
    avgEntry := jsNumOr row.avg_entry 0
    sl := jsNumOr row.sl 0
    tsl := jsNumOr row.tsl 0
    buySell := row.buy_sell
    cmp := jsNumOr row.cmp 0
    setup := jsStrOr row.setup []
    baseDuration := jsStrOr row.base_duration []
    initialQty := jsNumOr row.initial_qty 0
    pyramid1Price := jsNumOr row.pyramid1_price 0
    pyramid1Qty := jsNumOr row.pyramid1_qty 0
    pyramid1Date := jsNullStrOr row.pyramid1_date []
    pyramid2Price := jsNumOr row.pyramid2_price 0
    pyramid2Qty := jsNumOr row.pyramid2_qty 0
    pyramid2Date := jsNullStrOr row.pyramid2_date []
    positionSize := jsNumOr row.position_size 0
    allocation := jsNumOr row.allocation 0
    slPercent := jsNumOr row.sl_percent 0
    exit1Price := jsNumOr row.exit1_price 0
    exit1Qty := jsNumOr row.exit1_qty 0
    exit1Date := jsNullStrOr row.exit1_date []
    exit2Price := jsNumOr row.exit2_price 0
    exit2Qty := jsNumOr row.exit2_qty 0
    exit2Date := jsNullStrOr row.exit2_date []
    exit3Price := jsNumOr row.exit3_price 0
    exit3Qty := jsNumOr row.exit3_qty 0
    exit3Date := jsNullStrOr row.exit3_date []
    openQty := jsNumOr row.open_qty 0
    exitedQty := jsNumOr row.exited_qty 0
    avgExitPrice := jsNumOr row.avg_exit_price 0
    stockMove := jsNumOr row.stock_move 0
    rewardRisk := jsNumOr row.reward_risk 0
    holdingDays := jsNumOr row.holding_days 0
    positionStatus := row.position_status
    realisedAmount := jsNumOr row.realised_amount 0
    plRs := jsNumOr row.pl_rs 0
    pfImpact := jsNumOr row.pf_impact 0
    cummPf := jsNumOr row.cumm_pf 0
    planFollowed := row.plan_followed
    exitTrigger := jsStrOr row.exit_trigger []
    proficiencyGrowthAreas := jsStrOr row.proficiency_growth_areas []
    sector := jsStrOr row.sector []
    openHeat := jsNumOr row.open_heat 0
    notes := jsStrOr row.notes []
    chartAttachments := some (row.chart_attachments.getD emptyAttachments)
    userEditedFields := some (row.user_edited_fields.getD [])
    cmpAutoFetched := some row.cmp_auto_fetched
    needsRecalculation := some row.needs_recalculation }

/-! ### SupabaseService (supabaseService.ts, first document)

Each operation is modelled as a pure function of the outcome of its network
calls (provided by an environment record), the global mutable state it touches
(idMappings and the trades cache) and the stored rows.  The list of issued
calls is returned as a trace. -/

/-- One cached getAllTrades result. -/
structure CacheEntry where
  data : List Trade
  timestamp : Int
deriving DecidableEq

/-- The static tradesCache map, keyed by cache key string. -/
abbrev TradesCache := List (Str × CacheEntry)

def CACHE_DURATION : Int := 30000

def cacheKey (userId : Str) : Str := "trades_".data ++ userId

def cacheGet (c : TradesCache) (k : Str) : Option CacheEntry :=
  (c.find? (fun p => p.1 == k)).map (fun p => p.2)

def cacheSet (c : TradesCache) (k : Str) (v : CacheEntry) : TradesCache :=
  if c.any (fun p => p.1 == k) then c.map (fun p => if p.1 == k then (k, v) else p)
  else c ++ [(k, v)]

def cacheDeleteKey (c : TradesCache) (k : Str) : TradesCache :=
  c.filter (fun p => !(p.1 == k))

/-- clearTradesCache (lines 242-248): delete one user's entry, or clear all. -/
def clearTradesCache (c : TradesCache) (userId : Option Str) : TradesCache :=
  match userId with
  | some u => cacheDeleteKey c (cacheKey u)
  | none => []

/-- The observable outcome of one supabase client call: data with a null
error, a returned error object, or a thrown exception. -/
inductive CallOutcome (α : Type)
  | ok (a : α)
  | errResult (e : Str)
  | thrown (e : Str)
deriving DecidableEq

def CallOutcome.isOk {α : Type} : CallOutcome α → Bool
  | .ok _ => true
  | _ => false

/-- Tags for the database calls the modelled operations can issue. -/
inductive DbCall
  | selectTrades
  | selectTradeSingle
  | selectExisting
  | updateTrade
  | insertTrade
  | deleteTradeRow
  | deleteUserTrades
  | insertBatch (idx : Nat) (size : Nat)
deriving DecidableEq

/-! #### getAllTrades (lines 182-239) -/

structure GetAllTradesEnv where
  userId : Option Str
  now : Int
  selectResult : CallOutcome (List DbRow)

structure GetAllTradesOut where
  result : List Trade
  cache : TradesCache
  calls : List DbCall
deriving DecidableEq

/-- The fetch path of getAllTrades: issue the select, catch errors to [],
cache a successful result. -/
def getAllTradesFetch (env : GetAllTradesEnv) (m : Mappings) (cache : TradesCache)
    (key : Str) : GetAllTradesOut :=
  match env.selectResult with
  | .ok data =>
    let trades := data.map (dbRowToTrade m)
    { result := trades
      cache := cacheSet cache key { data := trades, timestamp := env.now }
      calls := [.selectTrades] }
  | _ => { result := [], cache := cache, calls := [.selectTrades] }

/-- getAllTrades: guest mode returns [], a fresh cache entry is served without
any call, otherwise fetch from the database. -/
def getAllTrades (env : GetAllTradesEnv) (m : Mappings) (cache : TradesCache) :
    GetAllTradesOut :=
  match env.userId with
  | none => { result := [], cache := cache, calls := [] }
  | some userId =>
    let key := cacheKey userId
    match cacheGet cache key with
    | some cached =>
      if env.now - cached.timestamp < CACHE_DURATION then
        { result := cached.data, cache := cache, calls := [] }
      else getAllTradesFetch env m cache key
    | none => getAllTradesFetch env m cache key

/-! #### getTrade (lines 250-276) -/

structure GetTradeEnv where
  userId : Option Str
  selectResult : CallOutcome (Option DbRow)

structure GetTradeOut where
  result : Option Trade
  mappings : Mappings
  calls : List DbCall
deriving DecidableEq

/-- getTrade: convert the id to a UUID, register the mapping, select a single
row; any error or thrown exception is caught and yields null. -/
def getTrade (env : GetTradeEnv) (id : Str) (m : Mappings) : GetTradeOut :=
  match env.userId with
  | none => { result := none, mappings := m, calls := [] }
  | some _ =>
    let uuid := convertToUUID id
    let m2 := mapSet m id uuid
    match env.selectResult with
    | .ok (some row) => { result := some (dbRowToTrade m2 row), mappings := m2,
                          calls := [.selectTradeSingle] }
    | .ok none => { result := none, mappings := m2, calls := [.selectTradeSingle] }
    | _ => { result := none, mappings := m2, calls := [.selectTradeSingle] }

/-! #### saveTrade (lines 306-363) -/

structure SaveTradeEnv where
  userId : Option Str
  existingCheck : CallOutcome (Option DbRow)
  updateResult : CallOutcome Unit
  insertResult : CallOutcome Unit

structure SaveTradeOut where
  result : Bool
  mappings : Mappings
  cache : TradesCache
  calls : List DbCall
deriving DecidableEq

/-- saveTrade: check existence (only the data of that call is looked at, its
error object is ignored), then update or insert; an error of the write call
is thrown and caught, returning false; on success the user's cache entry is
cleared. -/
def saveTrade (env : SaveTradeEnv) (trade : Trade) (m : Mappings) (cache : TradesCache) :
    SaveTradeOut :=
  match env.userId with
  | none => { result := false, mappings := m, cache := cache, calls := [] }
  | some userId =>
    let p := tradeToDbRow trade userId m
    match env.existingCheck with
    | .thrown _ => { result := false, mappings := p.2, cache := cache,
                     calls := [.selectExisting] }
    | .ok (some _) =>
      match env.updateResult with
      | .ok _ => { result := true, mappings := p.2,
                   cache := clearTradesCache cache (some userId),
                   calls := [.selectExisting, .updateTrade] }
      | _ => { result := false, mappings := p.2, cache := cache,
               calls := [.selectExisting, .updateTrade] }
    | _ =>
      match env.insertResult with
      | .ok _ => { result := true, mappings := p.2,
                   cache := clearTradesCache cache (some userId),
                   calls := [.selectExisting, .insertTrade] }
      | _ => { result := false, mappings := p.2, cache := cache,
               calls := [.selectExisting, .insertTrade] }

/-! #### deleteTrade (lines 426-451) -/

structure DeleteTradeEnv where
  userId : Option Str
  deleteResult : CallOutcome Unit

structure DeleteTradeOut where
  result : Bool
  mappings : Mappings
  cache : TradesCache
  calls : List DbCall
deriving DecidableEq

/-- deleteTrade: issue the delete, catch errors to false, drop the id mapping
on success.  The trades cache is never touched by this operation. -/
def deleteTrade (env : DeleteTradeEnv) (id : Str) (m : Mappings) (cache : TradesCache) :
    DeleteTradeOut :=
  match env.userId with
  | none => { result := false, mappings := m, cache := cache, calls := [] }
  | some _ =>
    match env.deleteResult with
    | .ok _ => { result := true, mappings := mapDelete m id, cache := cache,
                 calls := [.deleteTradeRow] }
    | _ => { result := false, mappings := m, cache := cache, calls := [.deleteTradeRow] }

/-! #### saveAllTrades (lines 365-424) -/

structure SaveAllTradesEnv where
  userId : Option Str
  deleteResult : CallOutcome Unit
  insertBatchResult : Nat → CallOutcome Unit

/-- trades.map(trade => tradeToDbRow(trade, userId)) with the idMappings side
effect threaded left to right. -/
def tradesToDbRows : List Trade → Str → Mappings → List DbRow × Mappings
  | [], _, m => ([], m)
  | t :: ts, u, m =>
    let p := tradeToDbRow t u m
    let q := tradesToDbRows ts u p.2
    (p.1 :: q.1, q.2)

structure BatchesOut where
  result : Bool
  db : List DbRow
  calls : List DbCall
deriving DecidableEq

/-- The batch-insert loop of saveAllTrades: slices of at most 100 rows are
inserted in order; the first failing insert aborts the loop (the error is
thrown and caught by the caller).  The fuel argument only bounds the number
of loop iterations and is always sufficient at the call site. -/
def insertBatchesAux (env : SaveAllTradesEnv) :
    Nat → List DbRow → List DbRow → Nat → BatchesOut
  | 0, db, _, _ => { result := true, db := db, calls := [] }
  | fuel + 1, db, rows, bidx =>
    if rows.isEmpty then { result := true, db := db, calls := [] }
    else
      let batch := rows.take 100
      match env.insertBatchResult bidx with
      | .ok _ =>
        let rest := insertBatchesAux env fuel (db ++ batch) (rows.drop 100) (bidx + 1)
        { result := rest.result, db := rest.db,
          calls := .insertBatch bidx batch.length :: rest.calls }
      | _ => { result := false, db := db, calls := [.insertBatch bidx batch.length] }

def insertBatches (env : SaveAllTradesEnv) (db rows : List DbRow) : BatchesOut :=
  insertBatchesAux env (rows.length + 1) db rows 0

structure SaveAllOut where
  result : Bool
  db : List DbRow
  mappings : Mappings
  cache : TradesCache
  calls : List DbCall
deriving DecidableEq

/-- saveAllTrades: delete all of the user's rows, then insert the supplied
trades in batches of at most 100; any error is caught and returns false,
leaving the rows already written in place; the cache is cleared only on the
success paths. -/
def saveAllTrades (env : SaveAllTradesEnv) (trades : List Trade) (m : Mappings)
    (cache : TradesCache) (db : List DbRow) : SaveAllOut :=
  match env.userId with
  | none => { result := false, db := db, mappings := m, cache := cache, calls := [] }
  | some userId =>
    match env.deleteResult with
    | .ok _ =>
      let db1 := db.filter (fun r => !(r.user_id == userId))
      if trades.isEmpty then
        { result := true, db := db1, mappings := m,
          cache := clearTradesCache cache (some userId), calls := [.deleteUserTrades] }
      else
        let p := tradesToDbRows trades userId m
        let b := insertBatches env db1 p.1
        if b.result then
          { result := true, db := b.db, mappings := p.2,
            cache := clearTradesCache cache (some userId),
            calls := .deleteUserTrades :: b.calls }
        else
          { result := false, db := b.db, mappings := p.2, cache := cache,
            calls := .deleteUserTrades :: b.calls }
    | _ => { result := false, db := db, mappings := m, cache := cache,
             calls := [.deleteUserTrades] }

/-! ### ChartImageService (chartImageService.ts)

The repository holds two variants of this service, separated by a document
marker: the original dual local/cloud variant (V1, lines 8-418) and the
Pure-Supabase variant (V2, lines 427-1238).  Both are modelled. -/

/-- A locally stored chart image blob (the fields cleanup reads). -/
structure BlobRec where
  id : Str
  tradeId : Str
deriving DecidableEq

/-- A chart_image_blobs row in Supabase (the fields cleanup reads). -/
structure SupaBlobRec where
  id : Str
  trade_id : Str
deriving DecidableEq

/-- cleanupOrphanedBlobs, V1 (lines 245-272): delete every local blob whose
tradeId matches no trade; count successful deletions as cleaned and failed
ones as errors.  Returns (cleaned, errors, ids actually deleted). -/
def cleanupOrphanedBlobsLocal (blobs : List BlobRec) (trades : List Trade)
    (deleteOk : Str → Bool) : Nat × Nat × List Str :=
  let tradeIds := trades.map (fun t => t.id)
  blobs.foldl
    (fun acc blob =>
      if blob.tradeId ∈ tradeIds then acc
      else if deleteOk blob.id then (acc.1 + 1, acc.2.1, acc.2.2 ++ [blob.id])
      else (acc.1, acc.2.1 + 1, acc.2.2))
    (0, 0, [])

/-- cleanupOrphanedBlobs, V2 (lines 987-1057): builds the trade-id set (both
original ids and their UUID conversions), detects orphans, but the deletion
statement is commented out in the source (TEMPORARILY DISABLE actual deletion
for debugging), so nothing is ever deleted and the counters stay zero.
Returns (cleaned, errors, ids actually deleted). -/
def cleanupOrphanedBlobsSupabase (authenticated : Bool) (blobs : List SupaBlobRec)
    (trades : List Trade) : Nat × Nat × List Str :=
  if !authenticated then (0, 0, [])
  else
    let tradeIds := trades.foldl
      (fun s t =>
        let s2 := s ++ [t.id]
        let conv := convertTradeIdToUUID t.id
        if conv ≠ t.id then s2 ++ [conv] else s2)
      []
    blobs.foldl
      (fun acc blob =>
        if blob.trade_id ∈ tradeIds then acc
        else acc)
      (0, 0, [])

/-- JS truthiness of an optional string (undefined and the empty string are
falsy). -/
def blobIdPresent : Option Str → Bool
  | none => false
  | some s => !s.isEmpty

/-- The removal test of cleanupOrphanedAttachments on one attachment slot:
attachment.storage === 'blob' && attachment.blobId && !blobIds.has(blobId).
Returns (kept slot, whether it was removed). -/
def cleanupAttachmentSlot (blobIds : List Str) : Option ChartImage → Option ChartImage × Bool
  | none => (none, false)
  | some a =>
    if a.storage = StorageKind.blob ∧ blobIdPresent a.blobId = true ∧
        a.blobId.getD [] ∉ blobIds then (none, true)
    else (some a, false)

/-- updatedAttachments.beforeEntry?.size || 0. -/
def slotSizeOrZero : Option ChartImage → ℚ
  | none => 0
  | some a => jsNumOr a.size 0

/-- The attachments value rebuilt after cleanup when at least one slot was
removed: the kept slots, with the metadata recomputed (totalSize is the sum
of the remaining attachment sizes), or undefined when no slot remains. -/
def rebuiltAttachments (keptBe keptAe : Option ChartImage) (now : Int) :
    Option TradeChartAttachments :=
  if keptBe.isSome || keptAe.isSome then
    some { beforeEntry := keptBe
           afterExit := keptAe
           metadata := some { totalSize := slotSizeOrZero keptBe + slotSizeOrZero keptAe
                              updatedAt := now } }
  else none

/-- The per-trade body of cleanupOrphanedAttachments (identical in V1 and V2):
drop orphaned slots; when something was dropped, either rebuild the metadata
(updatedAt := now, totalSize := sum of the remaining sizes) or set
chartAttachments to undefined when no slot remains.  Returns the updated
trade and the needsUpdate flag. -/
def cleanupTradeAttachments (blobIds : List Str) (now : Int) (trade : Trade) :
    Trade × Bool :=
  match trade.chartAttachments with
  | none => (trade, false)
  | some att =>
    let pBe := cleanupAttachmentSlot blobIds att.beforeEntry
    let pAe := cleanupAttachmentSlot blobIds att.afterExit
    if pBe.2 || pAe.2 then
      let newAtt : Option TradeChartAttachments :=
        if pBe.1.isSome || pAe.1.isSome then
          some { beforeEntry := pBe.1
                 afterExit := pAe.1
                 metadata := some { totalSize := slotSizeOrZero pBe.1 + slotSizeOrZero pAe.1
                                    updatedAt := now } }
        else none
      ({ trade with chartAttachments := newAtt }, true)
    else (trade, false)

structure CleanupAttachmentsEnv where
  authenticated : Bool
  now : Int
  saveOk : Str → Bool

/-- cleanupOrphanedAttachments, V2 (lines 1083-1166; V1 lines 277-346 has the
identical loop over the local database): for each trade whose attachment
references need cleanup, save the updated trade; count successes as cleaned
and failed saves as errors.  Returns (cleaned, errors, resulting stored
trades). -/
def cleanupOrphanedAttachments (env : CleanupAttachmentsEnv) (trades : List Trade)
    (blobs : List SupaBlobRec) : Nat × Nat × List Trade :=
  if !env.authenticated then (0, 0, trades)
  else
    let blobIds := blobs.map (fun b => b.id)
    trades.foldl
      (fun acc trade =>
        let p := cleanupTradeAttachments blobIds env.now trade
        if p.2 then
          if env.saveOk trade.id then (acc.1 + 1, acc.2.1, acc.2.2 ++ [p.1])
          else (acc.1, acc.2.1 + 1, acc.2.2 ++ [trade])
        else (acc.1, acc.2.1, acc.2.2 ++ [trade]))
      (0, 0, [])

/-! #### attachChartImage -/

/-- The externally visible effects of one attachChartImage run. -/
structure AttachResult where
  success : Bool
  localSaves : Nat
  cloudSaves : Nat
  cloudAttempts : Nat
deriving DecidableEq

structure AttachEnvV1 where
  localSaveOk : Bool
  authenticated : Bool
  cloudResult : CallOutcome Unit

/-- attachChartImage, V1 (lines 13-87): for a blob-storage image, save the
blob to the local IndexedDB (failure fails the operation), then, only when
authenticated, additionally try the cloud save, whose failure or exception is
logged and swallowed. -/
def attachChartImageV1 (env : AttachEnvV1) (ci : ChartImage) : AttachResult :=
  if ci.storage = StorageKind.blob ∧ blobIdPresent ci.blobId = true then
    if env.localSaveOk then
      if env.authenticated then
        match env.cloudResult with
        | .ok _ => { success := true, localSaves := 1, cloudSaves := 1, cloudAttempts := 1 }
        | _ => { success := true, localSaves := 1, cloudSaves := 0, cloudAttempts := 1 }
      else { success := true, localSaves := 1, cloudSaves := 0, cloudAttempts := 0 }
    else { success := false, localSaves := 0, cloudSaves := 0, cloudAttempts := 0 }
  else { success := true, localSaves := 0, cloudSaves := 0, cloudAttempts := 0 }

structure AttachEnvV2 where
  authenticated : Bool
  tradeFound : Bool
  tradeSaveOk : Bool
  verifyTradeFound : Bool
  cloudSaveOk : Bool

/-- attachChartImage, V2 (lines 514-711, Pure Supabase): requires
authentication, verifies and re-saves the trade, then saves the image only to
Supabase; a failed cloud save makes the whole operation fail; no local save
is ever performed. -/
def attachChartImageV2 (env : AttachEnvV2) : AttachResult :=
  if !env.authenticated then { success := false, localSaves := 0, cloudSaves := 0,
                               cloudAttempts := 0 }
  else if !env.tradeFound then { success := false, localSaves := 0, cloudSaves := 0,
                                 cloudAttempts := 0 }
  else if !env.tradeSaveOk then { success := false, localSaves := 0, cloudSaves := 0,
                                  cloudAttempts := 0 }
  else if !env.verifyTradeFound then { success := false, localSaves := 0, cloudSaves := 0,
                                       cloudAttempts := 0 }
  else if env.cloudSaveOk then { success := true, localSaves := 0, cloudSaves := 1,
                                 cloudAttempts := 1 }
  else { success := false, localSaves := 0, cloudSaves := 0, cloudAttempts := 1 }

/-! ### compressImage dimensions (chartImageUtils.ts lines 61-147) -/

def MAX_DIMENSION : Nat := 2048

/-- JS Math.round: round half towards positive infinity. -/
def jsRound (q : ℚ) : Int := ⌊q + 1 / 2⌋

/-- The dimension computation of compressImage: when either side exceeds
maxDimension, both sides are scaled by ratio = min(maxDimension / width,
maxDimension / height) and rounded. -/
def compressDims (width height maxDimension : Nat) : Int × Int :=
  if maxDimension < width ∨ maxDimension < height then
    let ratio : ℚ := min ((maxDimension : ℚ) / width) ((maxDimension : ℚ) / height)
    (jsRound (width * ratio), jsRound (height * ratio))
  else ((width : Int), (height : Int))

/-! ### A sample trade used by concrete witnesses and counterexamples -/

def sampleChartImage : ChartImage :=
  { id := "img1".data, filename := "before.png".data, mimeType := "image/png".data,
    size := 1000, uploadedAt := 0, storage := StorageKind.blob,
    blobId := some "blob-1".data, data := none }

def sampleAttachments : TradeChartAttachments :=
  { beforeEntry := some sampleChartImage
    afterExit := none
    metadata := some { totalSize := 1000, updatedAt := 0 } }

def sampleTrade : Trade :=
  { id := "trade-1".data
    tradeNo := "1".data
    date := "2024-01-02".data
    name := "ACME".data
    entry := 100
    avgEntry := 100
    sl := 95
    tsl := 96
    buySell := BuySell.Buy
    cmp := 110
    setup := "Breakout".data
    baseDuration := "Swing".data
    initialQty := 10
    pyramid1Price := 0
    pyramid1Qty := 0
    pyramid1Date := []
    pyramid2Price := 0
    pyramid2Qty := 0
    pyramid2Date := []
    positionSize := 1000
    allocation := 10
    slPercent := 5
    exit1Price := 110
    exit1Qty := 10
    exit1Date := "2024-02-02".data
    exit2Price := 0
    exit2Qty := 0
    exit2Date := []
    exit3Price := 0
    exit3Qty := 0
    exit3Date := []
    openQty := 0
    exitedQty := 10
    avgExitPrice := 110
    stockMove := 10
    rewardRisk := 2
    holdingDays := 31
    positionStatus := PositionStatus.Closed
    realisedAmount := 1100
    plRs := 100
    pfImpact := 1
    cummPf := 1
    planFollowed := true
    exitTrigger := "Target".data
    proficiencyGrowthAreas := []
    sector := "Tech".data
    openHeat := 0
    notes := []
    chartAttachments := some sampleAttachments
    userEditedFields := some []
    cmpAutoFetched := some false
    needsRecalculation := some false }

/-! ### Concrete environments used by witnesses and counterexamples -/

/-- getAllTrades environment whose select call reports an error. -/
def envGetAllErr : GetAllTradesEnv :=
  { userId := some "u".data, now := 0, selectResult := .errResult "boom".data }

/-- getTrade environment whose select call reports an error. -/
def envGetTradeErr : GetTradeEnv :=
  { userId := some "u".data, selectResult := .errResult "boom".data }

/-- saveTrade environment in which the trade does not exist yet and the
insert call reports an error. -/
def envSaveInsErr : SaveTradeEnv :=
  { userId := some "u".data, existingCheck := .ok none, updateResult := .ok (),
    insertResult := .errResult "boom".data }

/-- saveTrade environment in which everything succeeds (new trade). -/
def envSaveOk : SaveTradeEnv :=
  { userId := some "u".data, existingCheck := .ok none, updateResult := .ok (),
    insertResult := .ok () }

/-- deleteTrade environment whose delete call reports an error. -/
def envDeleteErr : DeleteTradeEnv :=
  { userId := some "u".data, deleteResult := .errResult "boom".data }

/-- deleteTrade environment whose delete call succeeds. -/
def envDeleteOk : DeleteTradeEnv :=
  { userId := some "u".data, deleteResult := .ok () }

/-- saveAllTrades environment where the delete succeeds and the first insert
batch fails. -/
def envSaveAllBatchErr : SaveAllTradesEnv :=
  { userId := some "u".data, deleteResult := .ok (),
    insertBatchResult := fun _ => .errResult "boom".data }

/-- saveAllTrades environment where everything succeeds. -/
def envSaveAllOk : SaveAllTradesEnv :=
  { userId := some "u".data, deleteResult := .ok (),
    insertBatchResult := fun _ => .ok () }

/-- The database row of the sample trade for user u. -/
def sampleDbRow : DbRow := (tradeToDbRow sampleTrade "u".data []).1

/-- A cache holding one fresh entry for user u: the pre-modification list. -/
def cacheWithSample : TradesCache :=
  [(cacheKey "u".data, { data := [sampleTrade], timestamp := 0 })]

/-- getAllTrades environment at time 1000 (entry of cacheWithSample is
fresh), whose select would return no rows. -/
def envGetAllFresh : GetAllTradesEnv :=
  { userId := some "u".data, now := 1000, selectResult := .ok [] }

/-- cleanupOrphanedAttachments environment: authenticated, saves succeed. -/
def envCleanup : CleanupAttachmentsEnv :=
  { authenticated := true, now := 5, saveOk := fun _ => true }

/-! ### Structural facts about simpleHash and the UUID regular expression -/

lemma toInt32_natAbs_le (n : Int) : (toInt32 n).natAbs ≤ 2 ^ 31 := by
  unfold toInt32
  omega

lemma hashFold_natAbs_le (s : Str) : (hashFold s).natAbs ≤ 2 ^ 31 := by
  unfold hashFold
  induction s using List.reverseRecOn with
  | nil => simp
  | append_singleton t c _ =>
    rw [List.foldl_append]
    exact toInt32_natAbs_le _

lemma hexDigitChar_isHex {m : Nat} (h : m < 16) : isHexDigit (hexDigitChar m) = true := by
  revert h
  revert m
  decide

lemma toHexAux_mem_isHex (fuel n : Nat) (acc : List Char)
    (hacc : ∀ c ∈ acc, isHexDigit c = true) :
    ∀ c ∈ toHexAux fuel n acc, isHexDigit c = true := by
  induction fuel generalizing n acc with
  | zero => simpa [toHexAux] using hacc
  | succ fuel ih =>
    intro c hc
    rw [toHexAux] at hc
    split at hc
    · rcases List.mem_cons.mp hc with h | h
      · subst h; exact hexDigitChar_isHex (by omega)
      · exact hacc _ h
    · refine ih _ _ ?_ _ hc
      intro d hd
      rcases List.mem_cons.mp hd with h | h
      · subst h; exact hexDigitChar_isHex (Nat.mod_lt _ (by omega))
      · exact hacc _ h

lemma toHexAux_length (k : Nat) : ∀ fuel n acc, n < 16 ^ k → 0 < k →
    (toHexAux fuel n acc).length ≤ k + acc.length := by
  induction k with
  | zero => omega
  | succ k ih =>
    intro fuel n acc hn _
    cases fuel with
    | zero => simp only [toHexAux]; omega
    | succ fuel =>
      rw [toHexAux]
      split
      · simp; omega
      · rcases Nat.eq_zero_or_pos k with rfl | hk
        · norm_num at hn; omega
        · have hdiv : n / 16 < 16 ^ k := by
            rw [Nat.div_lt_iff_lt_mul (by omega)]
            calc n < 16 ^ (k + 1) := hn
              _ = 16 ^ k * 16 := by ring
          have := ih fuel (n / 16) (hexDigitChar (n % 16) :: acc) hdiv hk
          simp only [List.length_cons] at this
          omega

lemma simpleHash_length (s : Str) : (simpleHash s).length = 8 := by
  have hb : (hashFold s).natAbs < 16 ^ 8 := by
    have := hashFold_natAbs_le s
    calc (hashFold s).natAbs ≤ 2 ^ 31 := this
      _ < 16 ^ 8 := by norm_num
  have hlen : (toHex (hashFold s).natAbs).length ≤ 8 := by
    have := toHexAux_length 8 ((hashFold s).natAbs + 1) (hashFold s).natAbs [] hb (by omega)
    simpa [toHex] using this
  simp [simpleHash, padStart8]
  omega

lemma simpleHash_isHex (s : Str) : ∀ c ∈ simpleHash s, isHexDigit c = true := by
  intro c hc
  rcases List.mem_append.mp hc with h | h
  · rw [List.eq_of_mem_replicate h]; decide
  · exact toHexAux_mem_isHex _ _ [] (by simp) c h

lemma matchHexRun_append (a r : Str) (hall : ∀ c ∈ a, isHexDigit c = true) :
    matchHexRun a.length (a ++ r) = some r := by
  induction a with
  | nil => simp [matchHexRun]
  | cons c t ih =>
    have hc := hall c (List.mem_cons_self _ _)
    simp only [List.length_cons, List.cons_append, matchHexRun, hc, if_true]
    exact ih fun d hd => hall d (List.mem_cons_of_mem _ hd)

lemma matchHexRun_exact {n : Nat} (a : Str) (hl : a.length = n)
    (hall : ∀ c ∈ a, isHexDigit c = true) (r : Str) :
    matchHexRun n (a ++ r) = some r := by
  subst hl; exact matchHexRun_append a r hall

lemma expectDash_cons (r : Str) : expectDash ('-' :: r) = some r := rfl

lemma matchClass_cons (p : Char → Bool) (c : Char) (hc : p c = true) (r : Str) :
    matchClass p (c :: r) = some r := by
  simp [matchClass, hc]

/-- Building block: a string assembled from hex groups of lengths 8-4-3-3-12
with a version char and a variant char passes the strict UUID regex. -/
lemma uuidRegexTest_build (g1 g2 g3 g4 g5 : Str) (v : Char)
    (l1 : g1.length = 8) (l2 : g2.length = 4) (l3 : g3.length = 3)
    (l4 : g4.length = 3) (l5 : g5.length = 12)
    (h1 : ∀ c ∈ g1, isHexDigit c = true) (h2 : ∀ c ∈ g2, isHexDigit c = true)
    (h3 : ∀ c ∈ g3, isHexDigit c = true) (h4 : ∀ c ∈ g4, isHexDigit c = true)
    (h5 : ∀ c ∈ g5, isHexDigit c = true)
    (hv : isVariantChar v = true) :
    uuidRegexTest
      (g1 ++ '-' :: (g2 ++ '-' :: ('4' :: (g3 ++ '-' :: (v :: (g4 ++ '-' :: g5)))))) = true := by
  have hver : isVersionChar '4' = true := by decide
  have h5full : matchHexRun 12 g5 = some [] := by
    have := matchHexRun_exact g5 l5 h5 []
    simpa using this
  unfold uuidRegexTest
  rw [matchHexRun_exact g1 l1 h1, Option.some_bind, expectDash_cons, Option.some_bind,
    matchHexRun_exact g2 l2 h2, Option.some_bind, expectDash_cons, Option.some_bind,
    matchClass_cons _ _ hver, Option.some_bind,
    matchHexRun_exact g3 l3 h3, Option.some_bind, expectDash_cons, Option.some_bind,
    matchClass_cons _ _ hv, Option.some_bind,
    matchHexRun_exact g4 l4 h4, Option.some_bind, expectDash_cons, Option.some_bind,
    h5full]

lemma variantChar_ok (x : Nat) : isVariantChar (hexDigitChar ((x &&& 3) ||| 8)) = true := by
  have h3 : x &&& 3 ≤ 3 := Nat.and_le_right
  have hc : x &&& 3 = 0 ∨ x &&& 3 = 1 ∨ x &&& 3 = 2 ∨ x &&& 3 = 3 := by omega
  rcases hc with h | h | h | h <;> rw [h] <;> decide

lemma take_isHex (s : Str) (n : Nat) (h : ∀ c ∈ s, isHexDigit c = true) :
    ∀ c ∈ s.take n, isHexDigit c = true :=
  fun c hc => h c (List.take_subset n s hc)

lemma drop_take_isHex (s : Str) (n k : Nat) (h : ∀ c ∈ s, isHexDigit c = true) :
    ∀ c ∈ (s.drop n).take k, isHexDigit c = true :=
  fun c hc => h c (List.drop_subset n s (List.take_subset k _ hc))

lemma uuidRegexTest_convertToUUID (s : Str) : uuidRegexTest (convertToUUID s) = true := by
  unfold convertToUUID
  split
  · assumption
  · refine uuidRegexTest_build _ _ _ _ _ _ ?_ ?_ ?_ ?_ ?_ ?_ ?_ ?_ ?_ ?_ ?_
    · simp [List.length_take, simpleHash_length]
    · simp [List.length_take, simpleHash_length]
    · simp [List.length_take, simpleHash_length]
    · simp [List.length_take, List.length_drop, simpleHash_length]
    · simp [List.length_take, simpleHash_length]
    · exact take_isHex _ _ (simpleHash_isHex _)
    · exact take_isHex _ _ (simpleHash_isHex _)
    · exact take_isHex _ _ (simpleHash_isHex _)
    · exact drop_take_isHex _ _ _ (simpleHash_isHex _)
    · refine take_isHex _ _ ?_
      intro c hc
      rcases List.mem_append.mp hc with h | h
      · exact simpleHash_isHex _ _ h
      · exact simpleHash_isHex _ _ h
    · exact variantChar_ok _

lemma convertToUUID_of_valid {s : Str} (h : uuidRegexTest s = true) :
    convertToUUID s = s := by
  simp [convertToUUID, h]

/-! ### Claim C6 -/

/-- C6: for every input string s, convertToUUID s passes convertToUUID's own
validity test; a valid UUID is returned unchanged; the function is
idempotent; and it is deterministic (equal inputs give equal outputs). -/
theorem convertToUUID_canonical (s : Str) :
    uuidRegexTest (convertToUUID s) = true ∧
    (uuidRegexTest s = true → convertToUUID s = s) ∧
    convertToUUID (convertToUUID s) = convertToUUID s ∧
    (∀ t : Str, s = t → convertToUUID s = convertToUUID t) :=
  ⟨uuidRegexTest_convertToUUID s,
   fun h => convertToUUID_of_valid h,
   convertToUUID_of_valid (uuidRegexTest_convertToUUID s),
   fun _ ht => by rw [ht]⟩

/-- Witness for C6 at the legacy id "trade-1" and at a concrete valid UUID. -/
theorem convertToUUID_canonical_witness :
    uuidRegexTest (convertToUUID "trade-1".data) = true ∧
    convertToUUID "12345678-1234-4123-8123-123456789abc".data =
      "12345678-1234-4123-8123-123456789abc".data ∧
    convertToUUID (convertToUUID "trade-1".data) = convertToUUID "trade-1".data :=
  ⟨(convertToUUID_canonical "trade-1".data).1,
   (convertToUUID_canonical "12345678-1234-4123-8123-123456789abc".data).2.1 (by decide),
   (convertToUUID_canonical "trade-1".data).2.2.1⟩

/-! ### Claim C4 -/

/-- C4: the claim states that the inline conversion in attachChartImage and
convertTradeIdToUUID compute the same UUID as SupabaseService.convertToUUID.
The first equality holds (the two chartImageService conversions are the same
algorithm), but both differ from convertToUUID on legacy ids: at the legacy
id "1" the chart blob foreign key and the UUID the trade was saved under
disagree, although the source comments call the inline logic the EXACT same
conversion as SupabaseService.convertToUUID.  This evaluates both at "1". -/
theorem chartImage_uuid_conversion_diverges :
    (∀ s : Str, attachChartImageTradeIdConvert s = convertTradeIdToUUID s) ∧
    convertTradeIdToUUID "1".data = "00000031-0000-4000-8000-000000310000".data ∧
    convertToUUID "1".data = "00000031-374f-4374-b74f-00000031374f".data ∧
    convertToUUID "1".data ≠ convertTradeIdToUUID "1".data :=
  ⟨fun _ => rfl, by decide, by decide, by decide⟩

/-! ### Claim C8 -/

/-- C8: compressImage scales both dimensions by the single ratio
min(maxDimension / width, maxDimension / height) and rounds whenever either
side exceeds 2048, the results never exceed 2048, and an image already within
the limit keeps its dimensions. -/
theorem compressDims_spec (w h : Nat) (hw : 0 < w) (hh : 0 < h) :
    (compressDims w h MAX_DIMENSION).1 ≤ 2048 ∧
    (compressDims w h MAX_DIMENSION).2 ≤ 2048 ∧
    (2048 < w ∨ 2048 < h →
      compressDims w h MAX_DIMENSION =
        (jsRound (w * min ((2048 : ℚ) / w) ((2048 : ℚ) / h)),
         jsRound (h * min ((2048 : ℚ) / w) ((2048 : ℚ) / h)))) ∧
    (w ≤ 2048 ∧ h ≤ 2048 → compressDims w h MAX_DIMENSION = ((w : Int), (h : Int))) := by
  have hw0 : (w : ℚ) ≠ 0 := Nat.cast_ne_zero.mpr (by omega)
  have hh0 : (h : ℚ) ≠ 0 := Nat.cast_ne_zero.mpr (by omega)
  have hwpos : (0 : ℚ) < w := by positivity
  have hhpos : (0 : ℚ) < h := by positivity
  have roundle : ∀ q : ℚ, q ≤ 2048 → jsRound q ≤ 2048 := by
    intro q hq
    unfold jsRound
    have : ⌊q + 1 / 2⌋ ≤ ⌊(2048 : ℚ) + 1 / 2⌋ := Int.floor_le_floor (by linarith)
    have h2 : ⌊(2048 : ℚ) + 1 / 2⌋ = 2048 := by
      rw [Int.floor_eq_iff]
      norm_num
    omega
  by_cases hres : 2048 < w ∨ 2048 < h
  · have hdims : compressDims w h MAX_DIMENSION =
        (jsRound (w * min ((2048 : ℚ) / w) ((2048 : ℚ) / h)),
         jsRound (h * min ((2048 : ℚ) / w) ((2048 : ℚ) / h))) := by
      simp only [compressDims, MAX_DIMENSION]
      rw [if_pos hres]
      norm_num
    have hwbound : (w : ℚ) * min ((2048 : ℚ) / w) ((2048 : ℚ) / h) ≤ 2048 := by
      calc (w : ℚ) * min ((2048 : ℚ) / w) ((2048 : ℚ) / h)
          ≤ w * ((2048 : ℚ) / w) :=
            mul_le_mul_of_nonneg_left (min_le_left _ _) (le_of_lt hwpos)
        _ = 2048 := by field_simp
    have hhbound : (h : ℚ) * min ((2048 : ℚ) / w) ((2048 : ℚ) / h) ≤ 2048 := by
      calc (h : ℚ) * min ((2048 : ℚ) / w) ((2048 : ℚ) / h)
          ≤ h * ((2048 : ℚ) / h) :=
            mul_le_mul_of_nonneg_left (min_le_right _ _) (le_of_lt hhpos)
        _ = 2048 := by field_simp
    refine ⟨?_, ?_, fun _ => hdims, fun hin => by omega⟩
    · rw [hdims]
      exact roundle _ hwbound
    · rw [hdims]
      exact roundle _ hhbound
  · push_neg at hres
    have hdims : compressDims w h MAX_DIMENSION = ((w : Int), (h : Int)) := by
      simp only [compressDims, MAX_DIMENSION]
      rw [if_neg (by omega)]
    refine ⟨?_, ?_, fun hcon => by omega, fun _ => hdims⟩
    · rw [hdims]
      simp only []
      omega
    · rw [hdims]
      simp only []
      omega

/-! ### Claim C2 -/

/-- C2: each modelled SupabaseService operation issues every underlying
database call at most once (the call trace has no duplicate, so there is no
retry), and an error result or a thrown exception of the issued call is
caught and turned into the operation's failure value: [] for getAllTrades,
null for getTrade, false for saveTrade and deleteTrade.  (In saveTrade the
error object of the existence probe is ignored by the source, so the
error conditions attach to the calls that were actually issued.) -/
theorem supabase_ops_error_handling (envA : GetAllTradesEnv) (envT : GetTradeEnv)
    (envS : SaveTradeEnv) (envD : DeleteTradeEnv) (id : Str) (t : Trade)
    (m : Mappings) (c : TradesCache) :
    (getAllTrades envA m c).calls.Nodup ∧
    (getTrade envT id m).calls.Nodup ∧
    (saveTrade envS t m c).calls.Nodup ∧
    (deleteTrade envD id m c).calls.Nodup ∧
    (∀ e, DbCall.selectTrades ∈ (getAllTrades envA m c).calls →
      (envA.selectResult = .errResult e ∨ envA.selectResult = .thrown e) →
      (getAllTrades envA m c).result = []) ∧
    (∀ e, (envT.selectResult = .errResult e ∨ envT.selectResult = .thrown e) →
      (getTrade envT id m).result = none) ∧
    (∀ e, envS.existingCheck = .thrown e → (saveTrade envS t m c).result = false) ∧
    (∀ e, DbCall.updateTrade ∈ (saveTrade envS t m c).calls →
      (envS.updateResult = .errResult e ∨ envS.updateResult = .thrown e) →
      (saveTrade envS t m c).result = false) ∧
    (∀ e, DbCall.insertTrade ∈ (saveTrade envS t m c).calls →
      (envS.insertResult = .errResult e ∨ envS.insertResult = .thrown e) →
      (saveTrade envS t m c).result = false) ∧
    (∀ e, (envD.deleteResult = .errResult e ∨ envD.deleteResult = .thrown e) →
      (deleteTrade envD id m c).result = false) := by
  obtain ⟨uA, nowA, selA⟩ := envA
  obtain ⟨uT, selT⟩ := envT
  obtain ⟨uS, exS, upS, inS⟩ := envS
  obtain ⟨uD, delD⟩ := envD
  refine ⟨?_, ?_, ?_, ?_, ?_, ?_, ?_, ?_, ?_, ?_⟩
  · cases uA with
    | none => simp [getAllTrades]
    | some u =>
      simp only [getAllTrades]
      split
      · split
        · exact List.nodup_nil
        · cases selA <;> simp [getAllTradesFetch]
      · cases selA <;> simp [getAllTradesFetch]
  · cases uT with
    | none => simp [getTrade]
    | some u =>
      rcases selT with r | e | e
      · rcases r with _ | row <;> simp [getTrade]
      · simp [getTrade]
      · simp [getTrade]
  · cases uS with
    | none => simp [saveTrade]
    | some u =>
      rcases exS with r | e | e
      · rcases r with _ | row
        · cases inS <;> simp [saveTrade]
        · cases upS <;> simp [saveTrade]
      · cases inS <;> simp [saveTrade]
      · simp [saveTrade]
  · cases uD with
    | none => simp [deleteTrade]
    | some u => cases delD <;> simp [deleteTrade]
  · intro e hmem herr
    cases uA with
    | none => simp [getAllTrades] at hmem
    | some u =>
      rcases herr with h | h <;> subst h
      · simp only [getAllTrades] at hmem ⊢
        rcases hcg : cacheGet c (cacheKey u) with _ | ce
        · simp [hcg, getAllTradesFetch]
        · simp only [hcg] at hmem ⊢
          split at hmem
          · simp at hmem
          · simp [getAllTradesFetch]
            split
            · simp_all
            · rfl
      · simp only [getAllTrades] at hmem ⊢
        rcases hcg : cacheGet c (cacheKey u) with _ | ce
        · simp [hcg, getAllTradesFetch]
        · simp only [hcg] at hmem ⊢
          split at hmem
          · simp at hmem
          · simp [getAllTradesFetch]
            split
            · simp_all
            · rfl
  · intro e herr
    cases uT with
    | none => simp [getTrade]
    | some u => rcases herr with h | h <;> subst h <;> simp [getTrade]
  · intro e herr
    cases uS with
    | none => simp [saveTrade]
    | some u => subst herr; simp [saveTrade]
  · intro e hmem herr
    cases uS with
    | none => simp [saveTrade] at hmem
    | some u =>
      rcases exS with r | e2 | e2
      · rcases r with _ | row
        · cases inS <;> simp [saveTrade] at hmem
        · rcases herr with h | h <;> subst h <;> simp [saveTrade]
      · cases inS <;> simp [saveTrade] at hmem
      · simp [saveTrade] at hmem
  · intro e hmem herr
    cases uS with
    | none => simp [saveTrade] at hmem
    | some u =>
      rcases exS with r | e2 | e2
      · rcases r with _ | row
        · rcases herr with h | h <;> subst h <;> simp [saveTrade]
        · cases upS <;> simp [saveTrade] at hmem
      · rcases herr with h | h <;> subst h <;> simp [saveTrade]
      · simp [saveTrade] at hmem
  · intro e herr
    cases uD with
    | none => simp [deleteTrade]
    | some u => rcases herr with h | h <;> subst h <;> simp [deleteTrade]

/-- Witness for C2: concrete environments in which each issued call fails,
each operation returning its failure value. -/
theorem supabase_ops_error_handling_witness :
    (getAllTrades envGetAllErr [] []).result = [] ∧
    (getTrade envGetTradeErr "trade-1".data []).result = none ∧
    (saveTrade envSaveInsErr sampleTrade [] []).result = false ∧
    (deleteTrade envDeleteErr "trade-1".data [] []).result = false := by
  have h := supabase_ops_error_handling envGetAllErr envGetTradeErr envSaveInsErr
    envDeleteErr "trade-1".data sampleTrade [] []
  exact ⟨h.2.2.2.2.1 "boom".data (by decide) (Or.inl rfl),
         h.2.2.2.2.2.1 "boom".data (Or.inl rfl),
         h.2.2.2.2.2.2.2.2.1 "boom".data (by decide) (Or.inl rfl),
         h.2.2.2.2.2.2.2.2.2 "boom".data (Or.inl rfl)⟩

/-! ### Claim C1 -/

lemma jsNumOr_zero (x : ℚ) : jsNumOr x 0 = x := by
  unfold jsNumOr
  split <;> simp_all

lemma jsStrOr_nil (x : Str) : jsStrOr x [] = x := by
  unfold jsStrOr
  split <;> simp_all

lemma jsNullStrOr_roundtrip (s : Str) : jsNullStrOr (jsStrOrNull s) [] = s := by
  unfold jsStrOrNull jsNullStrOr jsStrOr
  split <;> simp_all

lemma mapSet_nil (k v : Str) : mapSet [] k v = [(k, v)] := by
  simp [mapSet]

lemma mapFindByValue_single (k v : Str) : mapFindByValue [(k, v)] v = some k := by
  simp [mapFindByValue, List.find?]

/-- C1 (amended): converting a trade to a database row and back restores the
trade exactly, provided its optional fields (chartAttachments,
_userEditedFields, _cmpAutoFetched, _needsRecalculation) are present; the id
is restored through the mapping registered by tradeToDbRow.  (The claim as
frozen fails when an optional field is absent, see the counterexample: the
JS truthiness defaults materialize absent fields on the way back.) -/
theorem tradeRow_roundtrip (t : Trade) (u : Str)
    (h1 : t.chartAttachments.isSome = true) (h2 : t.userEditedFields.isSome = true)
    (h3 : t.cmpAutoFetched.isSome = true) (h4 : t.needsRecalculation.isSome = true) :
    dbRowToTrade (tradeToDbRow t u []).2 (tradeToDbRow t u []).1 = t := by
  rcases t with ⟨tid, tno, tdate, tname, ten, tae, tsl1, ttsl, tbs, tcmp, tsetup, tbd, tiq,
    tp1p, tp1q, tp1d, tp2p, tp2q, tp2d, tps, tal, tslp, te1p, te1q, te1d, te2p, te2q, te2d,
    te3p, te3q, te3d, toq, teq, taep, tsm, trr, thd, tpst, tra, tpl, tpf, tcf2, tpfl, tet,
    tpga, tsec, toh, tnotes, tca, tuef, tcaf, tnrc⟩
  obtain ⟨ca, rfl⟩ := Option.isSome_iff_exists.mp h1
  obtain ⟨ue, rfl⟩ := Option.isSome_iff_exists.mp h2
  obtain ⟨cf, rfl⟩ := Option.isSome_iff_exists.mp h3
  obtain ⟨nr, rfl⟩ := Option.isSome_iff_exists.mp h4
  simp [tradeToDbRow, dbRowToTrade, mapSet_nil, mapFindByValue_single, jsNumOr_zero,
    jsStrOr_nil, jsNullStrOr_roundtrip]

/-- Counterexample to C1 as frozen: a trade without chartAttachments does not
round-trip; it comes back with chartAttachments set to the empty attachments
object instead of undefined. -/
theorem tradeRow_roundtrip_cex :
    dbRowToTrade
        (tradeToDbRow { sampleTrade with chartAttachments := none } "user-1".data []).2
        (tradeToDbRow { sampleTrade with chartAttachments := none } "user-1".data []).1 ≠
      { sampleTrade with chartAttachments := none } := by
  intro hcon
  have h := congrArg Trade.chartAttachments hcon
  simp [tradeToDbRow, dbRowToTrade] at h

/-- Witness for C1 (amended) at the sample trade. -/
theorem tradeRow_roundtrip_witness :
    sampleTrade.chartAttachments.isSome = true ∧
    sampleTrade.userEditedFields.isSome = true ∧
    sampleTrade.cmpAutoFetched.isSome = true ∧
    sampleTrade.needsRecalculation.isSome = true ∧
    dbRowToTrade (tradeToDbRow sampleTrade "user-1".data []).2
      (tradeToDbRow sampleTrade "user-1".data []).1 = sampleTrade :=
  ⟨rfl, rfl, rfl, rfl, tradeRow_roundtrip sampleTrade "user-1".data rfl rfl rfl rfl⟩

/-! ### Claim C9 -/

lemma cacheGet_delete (c : TradesCache) (k : Str) : cacheGet (cacheDeleteKey c k) k = none := by
  simp only [cacheGet, cacheDeleteKey]
  have hnone : (c.filter (fun p => !(p.1 == k))).find? (fun p => p.1 == k) = none := by
    rw [List.find?_eq_none]
    intro x hx
    have hmem := List.mem_filter.mp hx
    simp_all
  rw [hnone]
  rfl

/-- C9 (amended): saveTrade and saveAllTrades clear the user's cache entry
when they succeed, but deleteTrade never touches the trades cache, so a
getAllTrades issued within the cache duration after a deleteTrade can still
serve the pre-deletion list from cache.  (The claim as frozen asserts the
clearing for deleteTrade as well; the counterexample refutes that.) -/
theorem trades_cache_invalidation (envS : SaveTradeEnv) (envSA : SaveAllTradesEnv)
    (envD : DeleteTradeEnv) (t : Trade) (trades : List Trade) (id u : Str)
    (m : Mappings) (c : TradesCache) (db : List DbRow)
    (hS : envS.userId = some u) (hSA : envSA.userId = some u) :
    ((saveTrade envS t m c).result = true →
      cacheGet (saveTrade envS t m c).cache (cacheKey u) = none) ∧
    ((saveAllTrades envSA trades m c db).result = true →
      cacheGet (saveAllTrades envSA trades m c db).cache (cacheKey u) = none) ∧
    (deleteTrade envD id m c).cache = c := by
  obtain ⟨uS, exS, upS, inS⟩ := envS
  obtain ⟨uSA, delSA, insSA⟩ := envSA
  obtain ⟨uD, delD⟩ := envD
  simp only at hS hSA
  subst hS
  subst hSA
  refine ⟨?_, ?_, ?_⟩
  · rcases exS with r | e | e
    · rcases r with _ | row
      · cases inS <;> simp [saveTrade, clearTradesCache, cacheGet_delete]
      · cases upS <;> simp [saveTrade, clearTradesCache, cacheGet_delete]
    · cases inS <;> simp [saveTrade, clearTradesCache, cacheGet_delete]
    · simp [saveTrade]
  · rcases delSA with a | e | e
    · simp only [saveAllTrades]
      split
      · simp [clearTradesCache, cacheGet_delete]
      · split <;> simp [clearTradesCache, cacheGet_delete]
    · simp [saveAllTrades]
    · simp [saveAllTrades]
  · cases uD with
    | none => rfl
    | some u2 => cases delD <;> rfl

/-- Counterexample to C9 as frozen: a successful deleteTrade leaves the
user's cache entry in place, and a getAllTrades issued 1 second later (well
within the 30 second duration) returns the pre-deletion trade list from the
cache, deleted trade included. -/
theorem deleteTrade_cache_not_cleared_cex :
    (deleteTrade envDeleteOk "trade-1".data [] cacheWithSample).result = true ∧
    (deleteTrade envDeleteOk "trade-1".data [] cacheWithSample).cache = cacheWithSample ∧
    cacheGet (deleteTrade envDeleteOk "trade-1".data [] cacheWithSample).cache
      (cacheKey "u".data) ≠ none ∧
    (getAllTrades envGetAllFresh []
        (deleteTrade envDeleteOk "trade-1".data [] cacheWithSample).cache).result =
      [sampleTrade] := by
  refine ⟨rfl, rfl, by decide, by decide⟩

/-- Witness for C9 (amended) at concrete successful operations. -/
theorem trades_cache_invalidation_witness :
    cacheGet (saveTrade envSaveOk sampleTrade [] cacheWithSample).cache
      (cacheKey "u".data) = none ∧
    cacheGet (saveAllTrades envSaveAllOk [sampleTrade] [] cacheWithSample []).cache
      (cacheKey "u".data) = none ∧
    (deleteTrade envDeleteOk "trade-1".data [] cacheWithSample).cache = cacheWithSample := by
  have h := trades_cache_invalidation envSaveOk envSaveAllOk envDeleteOk sampleTrade
    [sampleTrade] "trade-1".data "u".data [] cacheWithSample [] rfl rfl
  exact ⟨h.1 (by decide), h.2.1 (by decide), h.2.2⟩

/-! ### Claim C10 -/

lemma tradesToDbRows_length (ts : List Trade) (u : Str) (m : Mappings) :
    (tradesToDbRows ts u m).1.length = ts.length := by
  induction ts generalizing m with
  | nil => rfl
  | cons t ts ih => simp [tradesToDbRows, ih]

lemma insertBatchesAux_batch_sizes (env : SaveAllTradesEnv) (fuel : Nat) :
    ∀ rows db bidx i s,
      DbCall.insertBatch i s ∈ (insertBatchesAux env fuel db rows bidx).calls → s ≤ 100 := by
  induction fuel with
  | zero => intro rows db bidx i s h; simp [insertBatchesAux] at h
  | succ fuel ih =>
    intro rows db bidx i s h
    rw [insertBatchesAux] at h
    split at h
    · simp at h
    · rcases henv : env.insertBatchResult bidx with a | e | e <;> rw [henv] at h
      · simp only [List.mem_cons] at h
        rcases h with h | h
        · obtain ⟨h1, h2⟩ := DbCall.insertBatch.inj h
          subst h2
          rw [List.length_take]
          exact min_le_left _ _
        · exact ih _ _ _ _ _ h
      · simp only [List.mem_cons, List.not_mem_nil, or_false] at h
        obtain ⟨h1, h2⟩ := DbCall.insertBatch.inj h
        subst h2
        rw [List.length_take]
        exact min_le_left _ _
      · simp only [List.mem_cons, List.not_mem_nil, or_false] at h
        obtain ⟨h1, h2⟩ := DbCall.insertBatch.inj h
        subst h2
        rw [List.length_take]
        exact min_le_left _ _

lemma insertBatchesAux_all_ok (env : SaveAllTradesEnv)
    (hok : ∀ i, env.insertBatchResult i = .ok ()) (fuel : Nat) :
    ∀ rows db bidx, rows.length < fuel →
      (insertBatchesAux env fuel db rows bidx).result = true ∧
      (insertBatchesAux env fuel db rows bidx).db = db ++ rows := by
  induction fuel with
  | zero => intro rows db bidx h; omega
  | succ fuel ih =>
    intro rows db bidx hlen
    rw [insertBatchesAux]
    split
    next hemp =>
      have hnil : rows = [] := by simpa using hemp
      subst hnil
      exact ⟨rfl, by simp⟩
    next hemp =>
      have hne : rows ≠ [] := by simpa using hemp
      rw [hok bidx]
      have hlen1 : 0 < rows.length := List.length_pos.mpr hne
      have hrec := ih (rows.drop 100) (db ++ rows.take 100) (bidx + 1)
        (by simp only [List.length_drop]; omega)
      refine ⟨hrec.1, ?_⟩
      rw [hrec.2, List.append_assoc, List.take_append_drop]

lemma insertBatchesAux_first_fail (env : SaveAllTradesEnv) :
    ∀ j fuel rows db bidx,
      (∀ i, i < j → env.insertBatchResult (bidx + i) = .ok ()) →
      CallOutcome.isOk (env.insertBatchResult (bidx + j)) = false →
      100 * j < rows.length →
      rows.length < fuel →
      (insertBatchesAux env fuel db rows bidx).result = false ∧
      (insertBatchesAux env fuel db rows bidx).db = db ++ rows.take (100 * j) := by
  intro j
  induction j with
  | zero =>
    intro fuel rows db bidx hpre hfail hlt hfuel
    cases fuel with
    | zero => omega
    | succ fuel =>
      rw [insertBatchesAux]
      have hne : rows = [] → False := by intro h; subst h; simp at hlt
      rw [if_neg (by simpa using hne)]
      rcases hout : env.insertBatchResult bidx with a | e | e
      · exfalso
        cases a
        rw [show bidx + 0 = bidx by omega, hout] at hfail
        simp [CallOutcome.isOk] at hfail
      · exact ⟨rfl, by simp⟩
      · exact ⟨rfl, by simp⟩
  | succ j ih =>
    intro fuel rows db bidx hpre hfail hlt hfuel
    cases fuel with
    | zero => omega
    | succ fuel =>
      rw [insertBatchesAux]
      have hne : rows = [] → False := by intro h; subst h; simp at hlt
      rw [if_neg (by simpa using hne)]
      have h0 : env.insertBatchResult bidx = .ok () := by
        have := hpre 0 (by omega)
        simpa using this
      rw [h0]
      have hrec := ih fuel (rows.drop 100) (db ++ rows.take 100) (bidx + 1)
        (fun i hi => by
          have := hpre (i + 1) (by omega)
          rwa [show bidx + (i + 1) = bidx + 1 + i by omega] at this)
        (by rwa [show bidx + 1 + j = bidx + (j + 1) by omega])
        (by simp only [List.length_drop]; omega)
        (by simp only [List.length_drop]; omega)
      refine ⟨hrec.1, ?_⟩
      rw [hrec.2, List.append_assoc]
      have hsplit : rows.take 100 ++ (rows.drop 100).take (100 * j) =
          rows.take (100 * (j + 1)) := by
        have harith : 100 * (j + 1) = 100 + 100 * j := by ring
        rw [harith, List.take_add]
      rw [hsplit]

/-- C10: saveAllTrades first deletes all of the user's rows and then inserts
the supplied trades in batches of at most 100 rows; when every batch
succeeds, all rows are stored; when batch j is the first to fail, the
function returns false while the deletion and the j previous batches remain
applied, so the stored state changes even though failure is reported (the
operation is not atomic on error). -/
theorem saveAllTrades_non_atomic (env : SaveAllTradesEnv) (trades : List Trade)
    (m : Mappings) (c : TradesCache) (db : List DbRow) (u : Str) (j : Nat)
    (hu : env.userId = some u) (hdel : env.deleteResult = .ok ()) :
    (∀ i s, DbCall.insertBatch i s ∈ (saveAllTrades env trades m c db).calls → s ≤ 100) ∧
    ((∀ i, env.insertBatchResult i = .ok ()) →
      (saveAllTrades env trades m c db).result = true ∧
      (saveAllTrades env trades m c db).db =
        db.filter (fun r => !(r.user_id == u)) ++ (tradesToDbRows trades u m).1) ∧
    ((∀ i, i < j → env.insertBatchResult i = .ok ()) →
      CallOutcome.isOk (env.insertBatchResult j) = false →
      100 * j < (tradesToDbRows trades u m).1.length →
      (saveAllTrades env trades m c db).result = false ∧
      (saveAllTrades env trades m c db).db =
        db.filter (fun r => !(r.user_id == u)) ++
          (tradesToDbRows trades u m).1.take (100 * j)) := by
  obtain ⟨uE, dE, iE⟩ := env
  simp only at hu hdel
  subst hu
  subst hdel
  refine ⟨?_, ?_, ?_⟩
  · intro i s h
    simp only [saveAllTrades] at h
    split at h
    · simp at h
    · split at h <;>
      · simp only [List.mem_cons] at h
        rcases h with h | h
        · cases h
        · exact insertBatchesAux_batch_sizes _ _ _ _ _ _ _ h
  · intro hok
    simp only [saveAllTrades]
    split
    next hemp =>
      have hnil : trades = [] := by simpa using hemp
      subst hnil
      exact ⟨rfl, by simp [tradesToDbRows]⟩
    next hemp =>
      have hb := insertBatchesAux_all_ok ⟨some u, CallOutcome.ok (), iE⟩ hok
        ((tradesToDbRows trades u m).1.length + 1) (tradesToDbRows trades u m).1
        (db.filter (fun r => !(r.user_id == u))) 0 (by omega)
      rw [show insertBatches _ (db.filter (fun r => !(r.user_id == u)))
          (tradesToDbRows trades u m).1 =
          insertBatchesAux _ ((tradesToDbRows trades u m).1.length + 1)
            (db.filter (fun r => !(r.user_id == u)))
            (tradesToDbRows trades u m).1 0 from rfl]
      rw [if_pos hb.1]
      exact ⟨rfl, hb.2⟩
  · intro hpre hfail hlt
    simp only [saveAllTrades]
    have hnil : ¬trades.isEmpty = true := by
      intro hemp
      have : trades = [] := by simpa using hemp
      subst this
      simp [tradesToDbRows] at hlt
    rw [if_neg hnil]
    have hb := insertBatchesAux_first_fail ⟨some u, CallOutcome.ok (), iE⟩ j
      ((tradesToDbRows trades u m).1.length + 1)
      (tradesToDbRows trades u m).1 (db.filter (fun r => !(r.user_id == u))) 0
      (fun i hi => by simpa using hpre i hi) (by simpa using hfail) hlt (by omega)
    rw [show insertBatches _ (db.filter (fun r => !(r.user_id == u)))
        (tradesToDbRows trades u m).1 =
        insertBatchesAux _ ((tradesToDbRows trades u m).1.length + 1)
          (db.filter (fun r => !(r.user_id == u)))
          (tradesToDbRows trades u m).1 0 from rfl]
    rw [if_neg (by rw [hb.1]; exact Bool.false_ne_true)]
    exact ⟨rfl, hb.2⟩

/-- Witness for C10: one trade, the only batch fails; the user's existing row
is gone although the operation reported failure. -/
theorem saveAllTrades_non_atomic_witness :
    (saveAllTrades envSaveAllBatchErr [sampleTrade] [] [] [sampleDbRow]).result = false ∧
    (saveAllTrades envSaveAllBatchErr [sampleTrade] [] [] [sampleDbRow]).db = [] ∧
    [sampleDbRow] ≠ ([] : List DbRow) := by
  have h := saveAllTrades_non_atomic envSaveAllBatchErr [sampleTrade] [] [] [sampleDbRow]
    "u".data 0 rfl rfl
  have h3 := h.2.2 (fun i hi => absurd hi (by omega)) (by decide) (by decide)
  refine ⟨h3.1, ?_, by decide⟩
  rw [h3.2]
  decide

/-! ### Claim C3 -/

/-- C3: the claim describes cleanupOrphanedBlobs as deleting exactly the
blobs whose trade id identifies no existing trade and returning the number
actually deleted.  The local (V1) variant does exactly that, but in the
Pure-Supabase (V2) variant the deletion statement is commented out in the
source (TEMPORARILY DISABLE actual deletion for debugging), so an orphaned
blob is neither deleted nor counted: with one orphaned blob and no trades V2
returns cleaned 0 and deletes nothing, while V1 at the corresponding state
deletes the blob and returns cleaned 1. -/
theorem cleanupOrphanedBlobs_deletion_disabled :
    cleanupOrphanedBlobsSupabase true
      [{ id := "b1".data, trade_id := "t-orphan".data }] [] = (0, 0, []) ∧
    cleanupOrphanedBlobsLocal
      [{ id := "b1".data, tradeId := "t-orphan".data }] [] (fun _ => true) =
      (1, 0, ["b1".data]) :=
  ⟨by decide, by decide⟩

/-! ### Claim C5 -/

/-- Counterexample to C5 as frozen: in the Pure-Supabase variant of
attachChartImage a failed cloud save makes the operation return success
false although the claim predicts success true, and no local IndexedDB save
is performed at all. -/
theorem attachChartImage_cloud_failure_cex :
    (attachChartImageV2 ⟨true, true, true, true, false⟩).cloudAttempts = 1 ∧
    (attachChartImageV2 ⟨true, true, true, true, false⟩).success = false ∧
    (attachChartImageV2 ⟨true, true, true, true, false⟩).localSaves = 0 :=
  ⟨rfl, rfl, rfl⟩

/-- C5 (amended): the first ChartImageService variant behaves as the claim
states: a blob-storage image is saved to the local IndexedDB, a failed local
save fails the operation, and the cloud save is attempted exactly when the
user is authenticated, its failure or exception leaving success true.  The
second (Pure Supabase) variant instead performs no local save, requires
authentication, and returns success false when the cloud save fails. -/
theorem attachChartImage_spec (env1 : AttachEnvV1) (ci : ChartImage) (env2 : AttachEnvV2)
    (hblob : ci.storage = StorageKind.blob) (hid : blobIdPresent ci.blobId = true) :
    (env1.localSaveOk = true →
      (attachChartImageV1 env1 ci).success = true ∧
      (attachChartImageV1 env1 ci).localSaves = 1 ∧
      (attachChartImageV1 env1 ci).cloudAttempts = if env1.authenticated then 1 else 0) ∧
    (env1.localSaveOk = false → (attachChartImageV1 env1 ci).success = false ∧
      (attachChartImageV1 env1 ci).localSaves = 0) ∧
    (attachChartImageV2 env2).localSaves = 0 ∧
    (env2.authenticated = false → (attachChartImageV2 env2).success = false) ∧
    (env2.authenticated = true → env2.tradeFound = true → env2.tradeSaveOk = true →
      env2.verifyTradeFound = true → env2.cloudSaveOk = false →
      (attachChartImageV2 env2).success = false) := by
  obtain ⟨lok, auth1, cres⟩ := env1
  obtain ⟨auth2, tf, ts, vf, cok⟩ := env2
  refine ⟨?_, ?_, ?_, ?_, ?_⟩
  · intro hlok
    simp only at hlok
    subst hlok
    cases auth1 <;> cases cres <;>
      simp [attachChartImageV1, hblob, hid]
  · intro hlok
    simp only at hlok
    subst hlok
    simp [attachChartImageV1, hblob, hid]
  · cases auth2 <;> cases tf <;> cases ts <;> cases vf <;> cases cok <;>
      simp [attachChartImageV2]
  · intro h
    simp only at h
    subst h
    simp [attachChartImageV2]
  · intro h1 h2 h3 h4 h5
    simp only at h1 h2 h3 h4 h5
    subst h1; subst h2; subst h3; subst h4; subst h5
    simp [attachChartImageV2]

/-- Witness for C5 (amended) at concrete environments and the sample image. -/
theorem attachChartImage_spec_witness :
    sampleChartImage.storage = StorageKind.blob ∧
    blobIdPresent sampleChartImage.blobId = true ∧
    (attachChartImageV1 ⟨true, true, .errResult "boom".data⟩ sampleChartImage).success
      = true ∧
    (attachChartImageV1 ⟨false, true, .ok ()⟩ sampleChartImage).success = false ∧
    (attachChartImageV2 ⟨true, true, true, true, false⟩).success = false := by
  have h := attachChartImage_spec ⟨true, true, .errResult "boom".data⟩ sampleChartImage
    ⟨true, true, true, true, false⟩ rfl rfl
  have h2 := attachChartImage_spec ⟨false, true, .ok ()⟩ sampleChartImage
    ⟨true, true, true, true, false⟩ rfl rfl
  exact ⟨rfl, rfl, (h.1 rfl).1, (h2.2.1 rfl).1, h.2.2.2.2 rfl rfl rfl rfl rfl⟩

/-! ### Claim C7 -/

lemma cleanupTradeAttachments_not_updated (ids : List Str) (now : Int) (t : Trade)
    (h : (cleanupTradeAttachments ids now t).2 = false) :
    (cleanupTradeAttachments ids now t).1 = t := by
  unfold cleanupTradeAttachments at h ⊢
  split at h
  next heq => rfl
  next att heq =>
    dsimp only at h ⊢
    split at h
    next => simp at h
    next hcond =>
      rw [if_neg hcond]

lemma cleanupOrphanedAttachments_fold (ids : List Str) (now : Int) (saveOk : Str → Bool)
    (hsave : ∀ tid, saveOk tid = true) :
    ∀ (ts : List Trade) (acc : Nat × Nat × List Trade),
      (ts.foldl
        (fun acc trade =>
          let p := cleanupTradeAttachments ids now trade
          if p.2 then
            if saveOk trade.id then (acc.1 + 1, acc.2.1, acc.2.2 ++ [p.1])
            else (acc.1, acc.2.1 + 1, acc.2.2 ++ [trade])
          else (acc.1, acc.2.1, acc.2.2 ++ [trade])) acc).2.2 =
      acc.2.2 ++ ts.map (fun t => (cleanupTradeAttachments ids now t).1) := by
  intro ts
  induction ts with
  | nil => intro acc; simp
  | cons t ts ih =>
    intro acc
    rw [List.foldl_cons, List.map_cons]
    rcases hupd : (cleanupTradeAttachments ids now t).2 with _ | _
    · simp only [hupd, if_false, Bool.false_eq_true]
      rw [ih]
      rw [cleanupTradeAttachments_not_updated ids now t hupd]
      simp
    · simp only [hupd, hsave t.id, if_true]
      rw [ih]
      simp

/-- C7: cleanupOrphanedAttachments removes from each trade exactly those
blob-storage attachment references whose blobId is not among the stored
blobs, recomputes the metadata totalSize as the sum of the sizes of the
remaining attachments, sets chartAttachments to undefined when no attachment
remains, modifies no other field, and neither saves nor modifies a trade
whose references are all backed by stored blobs (assuming all saves
succeed). -/
theorem cleanupOrphanedAttachments_spec (env : CleanupAttachmentsEnv)
    (trades : List Trade) (blobs : List SupaBlobRec)
    (hauth : env.authenticated = true) (hsave : ∀ tid, env.saveOk tid = true) :
    ((cleanupOrphanedAttachments env trades blobs).2.2 =
      trades.map (fun t =>
        (cleanupTradeAttachments (blobs.map (fun b => b.id)) env.now t).1)) ∧
    (∀ o, (cleanupAttachmentSlot (blobs.map (fun b => b.id)) o).2 = true ↔
      ∃ a, o = some a ∧ a.storage = StorageKind.blob ∧ blobIdPresent a.blobId = true ∧
        a.blobId.getD [] ∉ blobs.map (fun b => b.id)) ∧
    (∀ o, (cleanupAttachmentSlot (blobs.map (fun b => b.id)) o).1 =
      if (cleanupAttachmentSlot (blobs.map (fun b => b.id)) o).2 then none else o) ∧
    (∀ t, t.chartAttachments = none →
      (cleanupTradeAttachments (blobs.map (fun b => b.id)) env.now t).1 = t) ∧
    (∀ t att, t.chartAttachments = some att →
      (cleanupAttachmentSlot (blobs.map (fun b => b.id)) att.beforeEntry).2 = false →
      (cleanupAttachmentSlot (blobs.map (fun b => b.id)) att.afterExit).2 = false →
      (cleanupTradeAttachments (blobs.map (fun b => b.id)) env.now t).1 = t ∧
      (cleanupTradeAttachments (blobs.map (fun b => b.id)) env.now t).2 = false) ∧
    (∀ t att, t.chartAttachments = some att →
      ((cleanupAttachmentSlot (blobs.map (fun b => b.id)) att.beforeEntry).2 = true ∨
        (cleanupAttachmentSlot (blobs.map (fun b => b.id)) att.afterExit).2 = true) →
      ((cleanupTradeAttachments (blobs.map (fun b => b.id)) env.now t).1.chartAttachments =
        rebuiltAttachments
          (cleanupAttachmentSlot (blobs.map (fun b => b.id)) att.beforeEntry).1
          (cleanupAttachmentSlot (blobs.map (fun b => b.id)) att.afterExit).1 env.now) ∧
      { (cleanupTradeAttachments (blobs.map (fun b => b.id)) env.now t).1 with
          chartAttachments := t.chartAttachments } = t) := by
  refine ⟨?_, ?_, ?_, ?_, ?_, ?_⟩
  · unfold cleanupOrphanedAttachments
    rw [hauth]
    simp only [Bool.not_true, Bool.false_eq_true, if_false]
    exact cleanupOrphanedAttachments_fold _ _ _ hsave trades (0, 0, [])
  · intro o
    rcases o with _ | a
    · simp [cleanupAttachmentSlot]
    · simp only [cleanupAttachmentSlot]
      split
      next hcond =>
        constructor
        · exact fun _ => ⟨a, rfl, hcond.1, hcond.2.1, hcond.2.2⟩
        · intro _
          rfl
      next hcond =>
        constructor
        · intro hfalse
          simp at hfalse
        · rintro ⟨b, hb, h1, h2, h3⟩
          cases hb
          exact absurd ⟨h1, h2, h3⟩ hcond
  · intro o
    rcases o with _ | a
    · simp [cleanupAttachmentSlot]
    · simp only [cleanupAttachmentSlot]
      split <;> simp
  · intro t h
    simp [cleanupTradeAttachments, h]
  · intro t att hatt hbe hae
    unfold cleanupTradeAttachments
    rw [hatt]
    dsimp only
    rw [if_neg (by simp [hbe, hae])]
    exact ⟨rfl, rfl⟩
  · intro t att hatt hdisj
    have hor : ((cleanupAttachmentSlot (blobs.map (fun b => b.id)) att.beforeEntry).2 ||
        (cleanupAttachmentSlot (blobs.map (fun b => b.id)) att.afterExit).2) = true := by
      rcases hdisj with h | h <;> simp [h]
    constructor
    · unfold cleanupTradeAttachments
      rw [hatt]
      dsimp only
      rw [if_pos hor]
      rfl
    · unfold cleanupTradeAttachments
      rw [hatt]
      dsimp only
      rw [if_pos hor, ← hatt]

/-- Witness for C7: an authenticated run over one trade whose beforeEntry
attachment references a blob that is not stored; the reference is removed and
chartAttachments becomes undefined. -/
theorem cleanupOrphanedAttachments_spec_witness :
    envCleanup.authenticated = true ∧
    (∀ tid, envCleanup.saveOk tid = true) ∧
    (cleanupOrphanedAttachments envCleanup [sampleTrade] []).2.2 =
      [sampleTrade].map (fun t =>
        (cleanupTradeAttachments (([] : List SupaBlobRec).map (fun b => b.id))
          envCleanup.now t).1) ∧
    (cleanupOrphanedAttachments envCleanup [sampleTrade] []).2.2 =
      [{ sampleTrade with chartAttachments := none }] := by
  have h := cleanupOrphanedAttachments_spec envCleanup [sampleTrade] [] rfl (fun _ => rfl)
  refine ⟨rfl, fun _ => rfl, h.1, ?_⟩
  rw [h.1]
  decide

/-- Witness for C8 at a 4096 by 1024 image (scaled to 2048 by 512) and at a
100 by 100 image (kept). -/
theorem compressDims_spec_witness :
    (0 : Nat) < 4096 ∧ (0 : Nat) < 1024 ∧
    compressDims 4096 1024 MAX_DIMENSION = (2048, 512) ∧
    (compressDims 4096 1024 MAX_DIMENSION).1 ≤ 2048 ∧
    (compressDims 4096 1024 MAX_DIMENSION).2 ≤ 2048 ∧
    compressDims 100 100 MAX_DIMENSION = (100, 100) := by
  have h1 := compressDims_spec 4096 1024 (by decide) (by decide)
  have h2 := compressDims_spec 100 100 (by decide) (by decide)
  have heval : compressDims 4096 1024 MAX_DIMENSION = (2048, 512) := by
    simp only [compressDims, MAX_DIMENSION]
    rw [if_pos (by norm_num)]
    norm_num [jsRound, min_def]
  refine ⟨by decide, by decide, heval, h1.1, h1.2.1, h2.2.2.2 (by decide)⟩

end TradingJournal
